import Mathlib

/-!
# Verification of the attila SQL notifier core

Shallow embedding of `attila/notifications/sql.py`: the field-mapping line
parser (`SQLNotifier._parse_field_mapping_line`), the type-coercion rules
(`TYPE_PARSER_MAP`), and the dispatch path (`SQLNotifier.__call__`).

Python strings are modelled as `String` at API boundaries and as `List Char`
internally.  Python standard-library primitives used by the source
(`str.strip`, `str.split`, `str.lower`, `str.format_map`, `int`,
`ast.literal_eval`) are modelled over the ASCII fragment they are applied to
in this code base; each model carries a doc comment stating its scope.
-/

/-- Model of Python `str.isspace` membership used by `strip`/`split`
(ASCII whitespace: space, tab, newline, carriage return, vertical tab,
form feed). -/
def isPySpace (c : Char) : Bool :=
  c = ' ' || c = '\t' || c = '\n' || c = '\r' || c = '\x0b' || c = '\x0c'

/-- Model of Python `str.lower` on one character (ASCII range). -/
def pyLowerChar (c : Char) : Char :=
  if 65 ≤ c.toNat ∧ c.toNat ≤ 90 then Char.ofNat (c.toNat + 32) else c

/-- Model of Python `str.lower` on a character list. -/
def lowerL (l : List Char) : List Char :=
  l.map pyLowerChar

/-- Drop leading Python-whitespace characters. -/
def dropSpaces : List Char → List Char
  | [] => []
  | c :: cs => if isPySpace c then dropSpaces cs else c :: cs

/-- Model of Python `str.strip` on a character list: drop whitespace from
both ends. -/
def stripL (l : List Char) : List Char :=
  (dropSpaces ((dropSpaces l).reverse)).reverse

/-- The leading maximal non-whitespace run of a list. -/
def takeToken : List Char → List Char
  | [] => []
  | c :: cs => if isPySpace c then [] else c :: takeToken cs

/-- Model of Python `line.split()[0]`: the first whitespace-delimited token,
or `none` when the line has no token (Python raises `IndexError` there). -/
def firstToken (l : List Char) : Option (List Char) :=
  match dropSpaces l with
  | [] => none
  | c :: cs => some (c :: takeToken cs)

/-- Numeric value of a decimal digit character. -/
def digitVal (c : Char) : Nat := c.toNat - 48

/-- Base-10 value of a digit list (most significant first). -/
def digitsToNat (l : List Char) : Nat :=
  l.foldl (fun a c => a * 10 + digitVal c) 0

/-- One-character scanner for the digit run after the first digit of a
Python `int` numeral: the flag records that the previous character was an
underscore, so a digit is required next (Python rejects trailing,
doubled, and non-separating underscores). -/
def digitsRunF : Bool → List Char → Nat → Option Nat
  | false, [], acc => some acc
  | true, [], _ => none
  | b, c :: cs, acc =>
    if c.isDigit then digitsRunF false cs (acc * 10 + digitVal c)
    else if b = false ∧ c = '_' then digitsRunF true cs acc
    else none

/-- Digit run after the first digit of a Python `int` numeral: digits,
with single underscores allowed between digits. -/
def digitsRun (l : List Char) (acc : Nat) : Option Nat :=
  digitsRunF false l acc

/-- Unsigned decimal numeral: one digit, then `digitsRun`. -/
def parseUnsigned : List Char → Option Nat
  | [] => none
  | c :: cs => if c.isDigit then digitsRun cs (digitVal c) else none

/-- The body of the `int(str)` model, on the whitespace-stripped
character list: a single leading `+`/`-` sign is allowed, then a
nonempty digit sequence with optional single underscores between
digits. -/
def pyIntCore : List Char → Option Int
  | [] => none
  | c :: cs =>
    if c = '+' then (parseUnsigned cs).map Int.ofNat
    else if c = '-' then (parseUnsigned cs).map (fun n => -(Int.ofNat n))
    else (parseUnsigned (c :: cs)).map Int.ofNat

/-- Model of Python's builtin `int(str)` (base 10, ASCII fragment):
surrounding whitespace is stripped, then `pyIntCore`.  `ValueError` is
modelled as `none`. -/
def pyInt (s : String) : Option Int :=
  pyIntCore (stripL s.data)

/-! ## Model of `ast.literal_eval` as used by `_string_parser` -/

/-- Python literal values relevant to `_string_parser`
(`ast.literal_eval` results; only the string case is ever kept). -/
inductive PyLit where
  | str (s : String)
  | int (n : Int)
  | bool (b : Bool)
  | pyNone
deriving DecidableEq

/-- Recognized single-character string escapes (the ones `literal_eval`
resolves for the inputs in scope); an unrecognized escape keeps the
backslash verbatim, as Python does. -/
def escChar (e : Char) : Option Char :=
  if e = 'n' then some '\n'
  else if e = 't' then some '\t'
  else if e = 'r' then some '\r'
  else if e = '\\' then some '\\'
  else if e = '\'' then some '\''
  else if e = '"' then some '"'
  else if e = '0' then some (Char.ofNat 0)
  else none

/-- Scan the body of a quoted string literal with quote character `q`:
returns the unescaped content and the characters after the closing quote,
or `none` when the literal is unterminated or contains a raw newline. -/
def quotedAux (q : Char) : List Char → Option (List Char × List Char)
  | [] => none
  | c :: rest =>
    if c = q then some ([], rest)
    else if c = '\n' then none
    else if c = '\\' then
      match rest with
      | [] => none
      | e :: rest2 =>
        match escChar e with
        | some ec => (quotedAux q rest2).map (fun p => (ec :: p.1, p.2))
        | none => (quotedAux q rest2).map (fun p => ('\\' :: e :: p.1, p.2))
    else (quotedAux q rest).map (fun p => (c :: p.1, p.2))

/-- Signed integer literal body (sign, optional spaces, digits with
underscore separators). -/
def parseSignedIntLit (l : List Char) : Option PyLit :=
  match l with
  | '+' :: r => (parseUnsigned (dropSpaces r)).map (fun n => PyLit.int n)
  | '-' :: r => (parseUnsigned (dropSpaces r)).map (fun n => PyLit.int (-(Int.ofNat n)))
  | _ => (parseUnsigned l).map (fun n => PyLit.int n)

/-- Model of `ast.literal_eval` restricted to the literal shapes that
matter for `_string_parser`: quoted string literals (single or double
quotes, with escapes), `True`/`False`/`None`, and signed decimal integer
literals.  Every other input — including literal shapes this model does
not cover, such as floats, containers, or implicit string concatenation —
is `none`; for `_string_parser` a non-`str` result and a parse failure
have the same effect (the raw input is passed through). -/
def pyLiteralEval (s : String) : Option PyLit :=
  match stripL s.data with
  | [] => none
  | q :: rest =>
    if q = '\'' ∨ q = '"' then
      match quotedAux q rest with
      | some (content, rm) =>
        if stripL rm = [] then some (PyLit.str (String.mk content)) else none
      | none => none
    else if q :: rest = "True".data then some (PyLit.bool true)
    else if q :: rest = "False".data then some (PyLit.bool false)
    else if q :: rest = "None".data then some PyLit.pyNone
    else parseSignedIntLit (q :: rest)

/-- Embedding of `_string_parser` (sql.py lines 33-40): try
`ast.literal_eval`; keep the result only when it is a `str`; in every
other case — parse failure or a non-string literal — return the raw
input unchanged. -/
def stringParser (s : String) : String :=
  match pyLiteralEval s with
  | some (PyLit.str r) => r
  | _ => s

/-! ## The type-coercion registry (`TYPE_PARSER_MAP`, `TYPE_MAP`) -/

/-- The `sql_dialects.enums.LiteralTypes` members used by the notifier. -/
inductive LitType where
  | dateT
  | dateTimeT
  | floatT
  | boolT
  | intT
  | nullT
  | stringT
deriving DecidableEq

/-- Typed values produced by the coercion rules. -/
inductive PyValue where
  | pyNone
  | int (n : Int)
  | str (s : String)
  | bool (b : Bool)
  | dec (mantissa : Int) (scale : Nat)
  | date (y m d : Nat)
  | datetime (y m d hh mm ss : Nat)
deriving DecidableEq

/-- Split a character list on a separator character. -/
def splitOnChar (sep : Char) : List Char → List (List Char)
  | [] => [[]]
  | c :: cs =>
    if c = sep then [] :: splitOnChar sep cs
    else
      match splitOnChar sep cs with
      | [] => [[c]]
      | g :: gs => (c :: g) :: gs

/-- Every character is a decimal digit. -/
def allDigits (l : List Char) : Bool := l.all Char.isDigit

/-- Modelled from the spec: `strings.parse_bool` (module `attila.strings`
is not under src/) — a recognized true/false token set, case-insensitive;
anything else fails. -/
def parseBool (s : String) : Option PyValue :=
  let l := lowerL s.data
  if l = "true".data then some (PyValue.bool true)
  else if l = "false".data then some (PyValue.bool false)
  else none

/-- A 1-or-2-digit numeric field within given bounds. -/
def numField (l : List Char) (lo hi : Nat) : Option Nat :=
  if (l.length = 1 ∨ l.length = 2) ∧ allDigits l ∧ l ≠ [] then
    let v := digitsToNat l
    if lo ≤ v ∧ v ≤ hi then some v else none
  else none

/-- Modelled from the spec: `strings.parse_date` (module `attila.strings`
is not under src/) — fixed calendar pattern `%Y-%m-%d`
(`STANDARD_DATE_FORMAT`): a 4-digit year, then month and day in range. -/
def parseDate (s : String) : Option PyValue :=
  match splitOnChar '-' s.data with
  | [y, m, d] =>
    if y.length = 4 ∧ allDigits y then
      match numField m 1 12, numField d 1 31 with
      | some mv, some dv => some (PyValue.date (digitsToNat y) mv dv)
      | _, _ => none
    else none
  | _ => none

/-- Modelled from the spec: `strings.parse_datetime` (module
`attila.strings` is not under src/) — fixed pattern `%Y-%m-%d %H:%M:%S`
(`STANDARD_DATETIME_FORMAT`). -/
def parseDatetime (s : String) : Option PyValue :=
  match splitOnChar ' ' s.data with
  | [datePart, timePart] =>
    match parseDate (String.mk datePart) with
    | some (PyValue.date y m d) =>
      match splitOnChar ':' timePart with
      | [hh, mm, ss] =>
        match numField hh 0 23, numField mm 0 59, numField ss 0 59 with
        | some hv, some mv, some sv => some (PyValue.datetime y m d hv mv sv)
        | _, _, _ => none
      | _ => none
    | _ => none
  | _ => none

/-- Model of `decimal.Decimal(str)` restricted to plain signed decimal
numerals (optional fractional part); exponents, underscores, and special
values such as NaN are outside the scope this core exercises. -/
def parseDecimal (s : String) : Option PyValue :=
  let l := stripL s.data
  let signBody : Int × List Char :=
    match l with
    | '+' :: r => (1, r)
    | '-' :: r => (-1, r)
    | _ => (1, l)
  match splitOnChar '.' signBody.2 with
  | [ip] =>
    if ip ≠ [] ∧ allDigits ip then
      some (PyValue.dec (signBody.1 * digitsToNat ip) 0)
    else none
  | [ip, fp] =>
    if (ip ≠ [] ∨ fp ≠ []) ∧ allDigits ip ∧ allDigits fp then
      some (PyValue.dec (signBody.1 * digitsToNat (ip ++ fp)) fp.length)
    else none
  | _ => none

/-- Embedding of `_null_parser` (sql.py lines 43-46): lower-case the
input and require it to be one of `''`, `'null'`, `'none'`, `'nil'`
(the failing `assert` is modelled as `none`). -/
def nullParser (s : String) : Option PyValue :=
  if lowerL s.data = [] ∨ lowerL s.data = "null".data ∨
     lowerL s.data = "none".data ∨ lowerL s.data = "nil".data then
    some PyValue.pyNone
  else none

/-- Embedding of `TYPE_PARSER_MAP` (sql.py lines 50-58): the coercion
rule for each literal type.  A coercion failure (`ValueError`,
`AssertionError`, ...) is modelled as `none`. -/
def runTypeRule : LitType → String → Option PyValue
  | LitType.dateT, s => parseDate s
  | LitType.dateTimeT, s => parseDatetime s
  | LitType.floatT, s => parseDecimal s
  | LitType.boolT, s => parseBool s
  | LitType.intT, s => (pyInt s).map PyValue.int
  | LitType.nullT, s => nullParser s
  | LitType.stringT, s => some (PyValue.str (stringParser s))

/-- Embedding of `TYPE_MAP` (sql.py lines 60-73): declared type-name
aliases to literal types. -/
def TYPE_MAP (s : String) : Option LitType :=
  if s = "bool" then some LitType.boolT
  else if s = "date" then some LitType.dateT
  else if s = "date/time" then some LitType.dateTimeT
  else if s = "datetime" then some LitType.dateTimeT
  else if s = "double" then some LitType.floatT
  else if s = "float" then some LitType.floatT
  else if s = "int" then some LitType.intT
  else if s = "integer" then some LitType.intT
  else if s = "none" then some LitType.nullT
  else if s = "null" then some LitType.nullT
  else if s = "str" then some LitType.stringT
  else if s = "string" then some LitType.stringT
  else none

/-! ## The field-mapping line parser (`_parse_field_mapping_line`) -/

/-- How `_parse_field_mapping_line` fails: `indexError` models the
unguarded `line.split()[0]` on a token-less line (Python `IndexError`);
`malformed` models the guarded assertion
`assert field_type and field_name and value_template and not in_brackets`
(the MalformedMappingError of the spec); `unknownType` models the
separate `assert field_type in TYPE_MAP`. -/
inductive ParseErr where
  | indexError
  | malformed
  | unknownType
deriving DecidableEq

/-- The scanner state of the character loop in
`_parse_field_mapping_line` (sql.py lines 104-123): the accumulated
`field_type`, the optional `field_name` and `value_template`
accumulators (Python `None` as `Option.none`), and the `in_brackets`
flag. -/
structure ScanState where
  fieldType : List Char
  fieldName : Option (List Char)
  valueTemplate : Option (List Char)
  inBrackets : Bool
deriving DecidableEq

/-- One iteration of `for char in line` (sql.py lines 108-123),
transcribed branch by branch. -/
def scanStep : ScanState → Char → ScanState
  | ⟨ft, fn?, vt?, inB⟩, c =>
    match vt? with
    | some vt => ⟨ft, fn?, some (vt ++ [c]), inB⟩
    | none =>
      match fn? with
      | some fn =>
        if inB = false ∧ c = ':' then ⟨ft, some fn, some [], inB⟩
        else if inB = true ∧ c = ']' then ⟨ft, some fn, none, false⟩
        else if fn = [] ∧ c = '[' then ⟨ft, some fn, none, true⟩
        else ⟨ft, some (fn ++ [c]), none, inB⟩
      | none =>
        if isPySpace c then ⟨ft, some [], none, inB⟩
        else ⟨ft ++ [c], none, none, inB⟩

/-- The preamble of `_parse_field_mapping_line` (sql.py lines 96-108):
strip the line, take `line.split()[0]` (an absent token is the
`IndexError` case), consume an optional case-insensitive `nullable`
prefix by dropping 8 characters and re-stripping, then run the
character scanner over the remaining line. -/
def scanOfLine (raw : String) : Except ParseErr (Bool × ScanState) :=
  let l0 := stripL raw.data
  match firstToken l0 with
  | none => Except.error ParseErr.indexError
  | some w =>
    if lowerL w = "nullable".data then
      Except.ok (true, (stripL (l0.drop 8)).foldl scanStep ⟨[], none, none, false⟩)
    else
      Except.ok (false, l0.foldl scanStep ⟨[], none, none, false⟩)

/-- Truthiness of an optional string accumulator (Python: not `None`
and non-empty). -/
def truthyOpt : Option (List Char) → Prop
  | none => False
  | some l => l ≠ []

instance (o : Option (List Char)) : Decidable (truthyOpt o) := by
  cases o <;> simp [truthyOpt] <;> infer_instance

/-- The postlude of `_parse_field_mapping_line` (sql.py lines 124-132):
lower-case and strip the field type, strip truthy name and template,
run the malformedness assertion, then the known-type assertion, and
return `(nullable, field_type, field_name, value_template)`. -/
def finishParse (nullable : Bool) (st : ScanState) :
    Except ParseErr (Bool × String × String × String) :=
  let ft := lowerL (stripL st.fieldType)
  let fn := st.fieldName.map (fun l => if l ≠ [] then stripL l else l)
  let vt := st.valueTemplate.map (fun l => if l ≠ [] then stripL l else l)
  if ft ≠ [] ∧ truthyOpt fn ∧ truthyOpt vt ∧ st.inBrackets = false then
    if (TYPE_MAP (String.mk ft)).isSome then
      Except.ok (nullable, String.mk ft, String.mk (fn.getD []), String.mk (vt.getD []))
    else Except.error ParseErr.unknownType
  else Except.error ParseErr.malformed

deriving instance DecidableEq for Except

/-- Embedding of `SQLNotifier._parse_field_mapping_line`
(sql.py lines 82-132). -/
def parseFieldMappingLine (raw : String) :
    Except ParseErr (Bool × String × String × String) :=
  match scanOfLine raw with
  | Except.error e => Except.error e
  | Except.ok (nullable, st) => finishParse nullable st

/-! ## Dispatch (`SQLNotifier.__call__`) -/

/-- How dispatch fails: `unsupportedOperation` models
`OperationNotSupportedError` for supplied attachments; `templateKey`
models the `KeyError` of `str.format_map` on a missing placeholder (the
spec's TemplateInterpolationError); `formatError` models the
`ValueError` of `str.format_map` on malformed braces; `typeLookup`
models a `KeyError` on `TYPE_MAP`; `coercion` models a failing coercion
rule (the spec's CoercionError), carrying the field name and the
interpolated string. -/
inductive NotifyErr where
  | unsupportedOperation
  | templateKey (key : String)
  | formatError
  | typeLookup (declaredType : String)
  | coercion (field : String) (value : String)
deriving DecidableEq

/-- First-match lookup in the keyword-argument context (Python `dict`
lookup; the context never holds duplicate keys). -/
def lookupKw (kw : List (String × String)) (k : String) : Option String :=
  match kw with
  | [] => none
  | (k', v) :: rest => if k' = k then some v else lookupKw rest k

/-- Scanner mode for the `str.format_map` model: plain text, just after
an opening brace, inside a placeholder key, or just after a closing
brace. -/
inductive FmMode where
  | text
  | openB
  | key (k : List Char)
  | closeB
deriving DecidableEq

/-- Model of Python `str.format_map` as a character scanner: `{name}`
is replaced by the string bound to `name` (a missing binding is the
`templateKey` error), `{{` and `}}` are literal braces, and a stray or
unterminated brace (including an empty `{}` placeholder, which Python
treats as positional and rejects here) is a `ValueError`.  Conversion
and format-spec suffixes (`!r`, `:>5`) are treated as part of the key;
the mapping templates of this domain use only plain named
placeholders. -/
def fmAux (kw : List (String × String)) :
    List Char → FmMode → List Char → Except NotifyErr (List Char)
  | [], mode, acc =>
    match mode with
    | FmMode.text => Except.ok acc
    | _ => Except.error NotifyErr.formatError
  | c :: rest, mode, acc =>
    match mode with
    | FmMode.text =>
      if c = '{' then fmAux kw rest FmMode.openB acc
      else if c = '}' then fmAux kw rest FmMode.closeB acc
      else fmAux kw rest FmMode.text (acc ++ [c])
    | FmMode.openB =>
      if c = '{' then fmAux kw rest FmMode.text (acc ++ ['{'])
      else if c = '}' then Except.error NotifyErr.formatError
      else fmAux kw rest (FmMode.key [c]) acc
    | FmMode.key k =>
      if c = '}' then
        match lookupKw kw (String.mk k) with
        | some v => fmAux kw rest FmMode.text (acc ++ v.data)
        | none => Except.error (NotifyErr.templateKey (String.mk k))
      else if c = '{' then Except.error NotifyErr.formatError
      else fmAux kw rest (FmMode.key (k ++ [c])) acc
    | FmMode.closeB =>
      if c = '}' then fmAux kw rest FmMode.text (acc ++ ['}'])
      else Except.error NotifyErr.formatError

/-- Model of `value_template.format_map(kwargs)` (sql.py line 244). -/
def formatMap (tmpl : String) (kw : List (String × String)) :
    Except NotifyErr String :=
  (fmAux kw tmpl.data FmMode.text []).map String.mk

/-- One entry of `self._fields`: the
`(nullable, field_type, field_name, value_template)` tuple stored by
`SQLNotifier.__init__` (sql.py lines 206-216). -/
structure FieldMapping where
  nullable : Bool
  fieldType : String
  fieldName : String
  valueTemplate : String
deriving DecidableEq

/-- The dispatch-time nullability override (sql.py line 245):
`nullable and value_str.lower() in ('', 'none', 'null')`. -/
def isNullOverride (nullable : Bool) (s : String) : Bool :=
  nullable && decide (lowerL s.data = [] ∨ lowerL s.data = "none".data ∨
    lowerL s.data = "null".data)

/-- One iteration of the field loop of `SQLNotifier.__call__`
(sql.py lines 242-252): interpolate the template, apply the nullability
override or run the declared type's coercion rule, and produce the
`(field_name, value, sql_type)` assignment passed to `command.set`. -/
def processField (kw : List (String × String)) (f : FieldMapping) :
    Except NotifyErr (String × PyValue × LitType) :=
  match formatMap f.valueTemplate kw with
  | Except.error e => Except.error e
  | Except.ok s =>
    if isNullOverride f.nullable s then
      Except.ok (f.fieldName, PyValue.pyNone, LitType.nullT)
    else
      match TYPE_MAP f.fieldType with
      | none => Except.error (NotifyErr.typeLookup f.fieldType)
      | some ty =>
        match runTypeRule ty s with
        | some v => Except.ok (f.fieldName, v, ty)
        | none => Except.error (NotifyErr.coercion f.fieldName s)

/-- The field loop of `SQLNotifier.__call__` in spec order: the first
failing field aborts, a fully successful pass yields the assignment
list. -/
def processFields (kw : List (String × String)) :
    List FieldMapping → Except NotifyErr (List (String × PyValue × LitType))
  | [] => Except.ok []
  | f :: rest =>
    match processField kw f with
    | Except.error e => Except.error e
    | Except.ok a =>
      match processFields kw rest with
      | Except.error e => Except.error e
      | Except.ok rs => Except.ok (a :: rs)

/-- INSERT vs UPDATE (sql.py lines 238-241). -/
inductive CommandKind where
  | insert
  | update
deriving DecidableEq

/-- The command handed to `self._connection.execute`: table name,
operation kind, and the ordered column assignments (the
`sql_dialects` command object, modelled per the spec's
CommandBuilder: no validation, order preserved). -/
structure SQLCommand where
  table : String
  kind : CommandKind
  assignments : List (String × PyValue × LitType)
deriving DecidableEq

/-- The immutable state of one `SQLNotifier` (sql.py lines 220-223,
minus the connection handle, which is the external collaborator). -/
structure SQLNotifierState where
  table : String
  fields : List FieldMapping
  commandType : String
deriving DecidableEq

/-- Embedding of `SQLNotifier.__call__` (sql.py lines 225-254): reject
supplied attachments, otherwise resolve every field and return the
built command; any error aborts before the command is complete.  The
`msg` parameter is accepted and ignored, as in the source. -/
def notifierCall (n : SQLNotifierState) (msg : Option String)
    (attachments : Option Unit) (kw : List (String × String)) :
    Except NotifyErr SQLCommand :=
  if attachments.isSome then Except.error NotifyErr.unsupportedOperation
  else
    match processFields kw n.fields with
    | Except.error e => Except.error e
    | Except.ok assigns =>
      Except.ok ⟨n.table,
        (if n.commandType = "INSERT" then CommandKind.insert else CommandKind.update),
        assigns⟩

/-- The exact sequence of calls made to the connection's `execute`
during one dispatch: the source calls `execute` once, at the very end,
only when every field resolved (sql.py line 254); a raised error means
zero calls. -/
def executeTrace (n : SQLNotifierState) (msg : Option String)
    (attachments : Option Unit) (kw : List (String × String)) : List SQLCommand :=
  match notifierCall n msg attachments kw with
  | Except.ok c => [c]
  | Except.error _ => []

/-! ## Concrete evaluations of the embedded operations -/

example : pyInt "123" = some 123 := by decide

example : pyInt "+123" = some 123 := by decide

example : pyInt " -4_2 " = some (-42) := by decide

example : pyInt "12a" = none := by decide

example : pyInt "" = none := by decide

example : pyInt "+" = none := by decide

example : pyInt "1__2" = none := by decide

example : pyInt "- 5" = none := by decide

example : stringParser "'abc'" = "abc" := by decide

example : stringParser "\"abc\"" = "abc" := by decide

example : stringParser "'a\\nb'" = "a\nb" := by decide

example : stringParser "123" = "123" := by decide

example : pyLiteralEval "123" = some (PyLit.int 123) := by decide

example : stringParser "hello world" = "hello world" := by decide

example : stringParser "'unterminated" = "'unterminated" := by decide

example : runTypeRule LitType.intT "123" = some (PyValue.int 123) := by decide

example : runTypeRule LitType.boolT "TRUE" = some (PyValue.bool true) := by decide

example : runTypeRule LitType.nullT "" = some PyValue.pyNone := by decide

example : runTypeRule LitType.nullT "Nil" = some PyValue.pyNone := by decide

example : runTypeRule LitType.nullT "nope" = none := by decide

example : runTypeRule LitType.floatT "3.14" = some (PyValue.dec 314 2) := by decide

example : runTypeRule LitType.dateT "2020-01-31" = some (PyValue.date 2020 1 31) := by decide

example : runTypeRule LitType.dateTimeT "2020-01-31 23:59:09" =
    some (PyValue.datetime 2020 1 31 23 59 9) := by decide

example : parseFieldMappingLine "nullable string [Full Name]: {first} {last}" =
    Except.ok (true, "string", "Full Name", "{first} {last}") := by decide

example : parseFieldMappingLine "int Count: {count}" =
    Except.ok (false, "int", "Count", "{count}") := by decide

example : parseFieldMappingLine "string [Name: {x}" = Except.error ParseErr.malformed := by
  decide

example : parseFieldMappingLine "string a[b]c: x" =
    Except.ok (false, "string", "a[b]c", "x") := by decide

example : parseFieldMappingLine "string a b: x" =
    Except.ok (false, "string", "a b", "x") := by decide

example : parseFieldMappingLine "" = Except.error ParseErr.indexError := by decide

example : parseFieldMappingLine "   " = Except.error ParseErr.indexError := by decide

example : parseFieldMappingLine "frob x: y" = Except.error ParseErr.unknownType := by decide

example : parseFieldMappingLine "NULLABLE INT Count: {count}" =
    Except.ok (true, "int", "Count", "{count}") := by decide

example : formatMap "{first} {last}" [("first", "A"), ("last", "B")] =
    Except.ok "A B" := by decide

example : formatMap "{first} {last}" [("first", "A")] =
    Except.error (NotifyErr.templateKey "last") := by decide

example : formatMap "a{{b}}c" [] = Except.ok "a{b}c" := by decide

example : formatMap "\x7bx" [("x", "v")] = Except.error NotifyErr.formatError := by decide

example : notifierCall ⟨"Events", [⟨false, "string", "Name", "{name}"⟩,
    ⟨true, "int", "Count", "{count}"⟩], "INSERT"⟩ none none
    [("name", "X"), ("count", "")] =
    Except.ok ⟨"Events", CommandKind.insert,
      [("Name", PyValue.str "X", LitType.stringT),
       ("Count", PyValue.pyNone, LitType.nullT)]⟩ := by decide

example : notifierCall ⟨"Events", [⟨false, "int", "Count", "{count}"⟩], "INSERT"⟩
    none none [] = Except.error (NotifyErr.templateKey "count") := by decide

example : executeTrace ⟨"Events", [⟨false, "int", "Count", "{count}"⟩], "INSERT"⟩
    none none [] = [] := by decide

example : notifierCall ⟨"Events", [], "INSERT"⟩ none (some ()) [] =
    Except.error NotifyErr.unsupportedOperation := by decide

example : processField [("x", "nil")] ⟨true, "int", "Count", "{x}"⟩ =
    Except.error (NotifyErr.coercion "Count" "nil") := by decide

example : processField [("x", "NIL")] ⟨true, "null", "Count", "{x}"⟩ =
    Except.ok ("Count", PyValue.pyNone, LitType.nullT) := by decide

/-! ## Helper lemmas -/

theorem dropSpaces_cons_of_nonspace {c : Char} (cs : List Char)
    (h : isPySpace c = false) : dropSpaces (c :: cs) = c :: cs := by
  simp [dropSpaces, h]

theorem dropSpaces_length_le (l : List Char) : (dropSpaces l).length ≤ l.length := by
  induction l with
  | nil => simp [dropSpaces]
  | cons c cs ih =>
    by_cases h : isPySpace c = true
    · simp [dropSpaces, h]; omega
    · simp [dropSpaces, h]

theorem nonspace_head_of_dropSpaces_self {c : Char} {cs : List Char}
    (h : dropSpaces (c :: cs) = c :: cs) : isPySpace c = false := by
  by_cases hc : isPySpace c = true
  · exfalso
    rw [dropSpaces, if_pos hc] at h
    have := dropSpaces_length_le cs
    rw [h] at this
    simp at this
  · simpa using hc

theorem dropSpaces_append {xs : List Char} (ys : List Char)
    (hx : dropSpaces xs = xs) (hne : xs ≠ []) :
    dropSpaces (xs ++ ys) = xs ++ ys := by
  cases xs with
  | nil => exact absurd rfl hne
  | cons x xs' =>
    have h0 : isPySpace x = false := nonspace_head_of_dropSpaces_self hx
    simp [dropSpaces, h0]

theorem stripL_eq_self {l : List Char} (h1 : dropSpaces l = l)
    (h2 : dropSpaces l.reverse = l.reverse) : stripL l = l := by
  unfold stripL
  rw [h1, h2, List.reverse_reverse]

theorem processFields_error_of_mem {kw : List (String × String)}
    {l : List FieldMapping} {f : FieldMapping} {e : NotifyErr}
    (hf : f ∈ l) (he : processField kw f = Except.error e) :
    ∃ e', processFields kw l = Except.error e' := by
  induction l with
  | nil => cases hf
  | cons g rest ih =>
    rcases List.mem_cons.mp hf with hfg | hmem
    · subst hfg
      exact ⟨e, by simp [processFields, he]⟩
    · cases hg : processField kw g with
      | error e2 => exact ⟨e2, by simp [processFields, hg]⟩
      | ok a =>
        obtain ⟨e', he'⟩ := ih hmem
        exact ⟨e', by simp [processFields, hg, he']⟩

/-! ## Claim theorems -/

/-- C7: supplying a non-absent `attachments` argument makes dispatch fail
with UnsupportedOperationError immediately, for every notifier state and
every context — including contexts under which interpolation or coercion
would also fail, which shows the check precedes interpolation, coercion,
command construction, and execution; the connection's execute operation
is called zero times. -/
theorem c7_attachments_rejected_immediately (n : SQLNotifierState)
    (msg : Option String) (a : Unit) (kw : List (String × String)) :
    notifierCall n msg (some a) kw = Except.error NotifyErr.unsupportedOperation ∧
    executeTrace n msg (some a) kw = [] := by
  constructor
  · simp [notifierCall]
  · simp [executeTrace, notifierCall]

/-- C1: if some field of the notifier fails — its template references a
placeholder key absent from the context, or its declared type's
coercion rule rejects the interpolated string — then dispatch raises
and the connection's execute operation is called zero times. -/
theorem c1_failed_field_blocks_execute (n : SQLNotifierState)
    (msg : Option String) (kw : List (String × String)) (f : FieldMapping)
    (hf : f ∈ n.fields)
    (h : (∃ k, formatMap f.valueTemplate kw = Except.error (NotifyErr.templateKey k)) ∨
         (∃ s ty, formatMap f.valueTemplate kw = Except.ok s ∧
           isNullOverride f.nullable s = false ∧
           TYPE_MAP f.fieldType = some ty ∧ runTypeRule ty s = none)) :
    (∃ e, notifierCall n msg none kw = Except.error e) ∧
    executeTrace n msg none kw = [] := by
  have hpf : ∃ e, processField kw f = Except.error e := by
    rcases h with ⟨k, hk⟩ | ⟨s, ty, hs, hov, hty, hrun⟩
    · exact ⟨NotifyErr.templateKey k, by simp [processField, hk]⟩
    · exact ⟨NotifyErr.coercion f.fieldName s,
        by simp [processField, hs, hov, hty, hrun]⟩
  obtain ⟨e, he⟩ := hpf
  obtain ⟨e', he'⟩ := processFields_error_of_mem hf he
  refine ⟨⟨e', ?_⟩, ?_⟩
  · simp [notifierCall, he']
  · simp [executeTrace, notifierCall, he']

/-- Witness for C1: a context missing the referenced key makes dispatch
fail with zero execute calls. -/
theorem c1_witness :
    (∃ e, notifierCall ⟨"Events", [⟨false, "int", "Count", "{count}"⟩], "INSERT"⟩
      none none [] = Except.error e) ∧
    executeTrace ⟨"Events", [⟨false, "int", "Count", "{count}"⟩], "INSERT"⟩
      none none [] = [] :=
  c1_failed_field_blocks_execute
    ⟨"Events", [⟨false, "int", "Count", "{count}"⟩], "INSERT"⟩ none []
    ⟨false, "int", "Count", "{count}"⟩ (by simp)
    (Or.inl ⟨"count", by decide⟩)

/-- C2: for a nullable field whose interpolated string lower-cases to
one of the null spellings, dispatch resolves the field to the explicit
NULL assignment; the result does not depend on the declared type, so the
declared type's coercion rule is never run (the field mapping `f`, and
with it `f.fieldType`, is arbitrary — including types whose rule would
reject the string). -/
theorem c2_null_override_skips_coercion (kw : List (String × String))
    (f : FieldMapping) (s : String) (hn : f.nullable = true)
    (hi : formatMap f.valueTemplate kw = Except.ok s)
    (hs : lowerL s.data = [] ∨ lowerL s.data = "none".data ∨
      lowerL s.data = "null".data) :
    processField kw f = Except.ok (f.fieldName, PyValue.pyNone, LitType.nullT) := by
  have hov : isNullOverride f.nullable s = true := by
    rw [isNullOverride, hn]
    simpa using hs
  simp [processField, hi, hov]

/-- Witness for C2: a nullable INTEGER field with interpolated `""`
yields NULL even though the INTEGER rule rejects `""`. -/
theorem c2_witness :
    processField [("count", "")] ⟨true, "int", "Count", "{count}"⟩ =
      Except.ok ("Count", PyValue.pyNone, LitType.nullT) :=
  c2_null_override_skips_coercion [("count", "")]
    ⟨true, "int", "Count", "{count}"⟩ "" rfl (by decide) (by decide)

/-- C9: STRING coercion is total — for every input it returns either the
input unchanged or the unescaped value of a parsed string literal; a
non-string literal such as `123` is discarded and the raw text is
returned, and quoted literals are unescaped. -/
theorem c9_string_coercion_total :
    (∀ s : String, stringParser s = s ∨
      ∃ r, pyLiteralEval s = some (PyLit.str r) ∧ stringParser s = r) ∧
    stringParser "123" = "123" ∧
    pyLiteralEval "123" = some (PyLit.int 123) ∧
    stringParser "'abc'" = "abc" ∧
    stringParser "'a\\nb'" = "a\nb" := by
  refine ⟨fun s => ?_, by decide, by decide, by decide, by decide⟩
  cases h : pyLiteralEval s with
  | none => exact Or.inl (by simp [stringParser, h])
  | some l =>
    cases l with
    | str r => exact Or.inr ⟨r, rfl, by simp [stringParser, h]⟩
    | int n => exact Or.inl (by simp [stringParser, h])
    | bool b => exact Or.inl (by simp [stringParser, h])
    | pyNone => exact Or.inl (by simp [stringParser, h])

/-- C10: a line whose stripped form is empty (empty or whitespace-only)
makes parse fail with the unguarded indexing error of
`line.split()[0]`, not with the MalformedMappingError of the grammar
assertion. -/
theorem c10_blank_line_index_error (raw : String)
    (h : stripL raw.data = []) :
    parseFieldMappingLine raw = Except.error ParseErr.indexError ∧
    parseFieldMappingLine raw ≠ Except.error ParseErr.malformed := by
  have h1 : parseFieldMappingLine raw = Except.error ParseErr.indexError := by
    simp [parseFieldMappingLine, scanOfLine, h, firstToken, dropSpaces]
  exact ⟨h1, by rw [h1]; simp⟩

/-- Witness for C10: the whitespace-only line. -/
theorem c10_witness :
    parseFieldMappingLine "   " = Except.error ParseErr.indexError ∧
    parseFieldMappingLine "   " ≠ Except.error ParseErr.malformed :=
  c10_blank_line_index_error "   " (by decide)

/-- C4: whenever the scanner finishes a line with the bracket flag still
set — a `[` opened a bracketed field-name region and no `]` closed it
before end of line — parse fails with MalformedMappingError. -/
theorem c4_unterminated_bracket_malformed (raw : String) (nb : Bool)
    (st : ScanState) (h : scanOfLine raw = Except.ok (nb, st))
    (hb : st.inBrackets = true) :
    parseFieldMappingLine raw = Except.error ParseErr.malformed := by
  simp [parseFieldMappingLine, h, finishParse, hb]

/-- Witness for C4: `parse("string [Name: {x}")` ends still inside the
bracket (the `:` inside it did not start the template) and is rejected
as malformed. -/
theorem c4_witness :
    parseFieldMappingLine "string [Name: {x}" = Except.error ParseErr.malformed :=
  c4_unterminated_bracket_malformed "string [Name: {x}" false
    ((stripL "string [Name: {x}".data).foldl scanStep ⟨[], none, none, false⟩)
    (by decide) (by decide)

/-- Counterexample to C5: parse accepts `"string a[b]c: x"`, whose
field-name region `a[b]c` contains both `[` and `]` yet is not a
bracketed `[`...`]` region (it does not start with `[`), so the
field-name region is not restricted to a bracket-free bare token or a
single bracketed region. -/
theorem c5_counterexample :
    parseFieldMappingLine "string a[b]c: x" =
      Except.ok (false, "string", "a[b]c", "x") ∧
    '[' ∈ "a[b]c".data ∧ ']' ∈ "a[b]c".data ∧
    "a[b]c".data.head? ≠ some '[' := by decide

/-- Counterexample to C6: the INTEGER rule is Python `int`, which
accepts a leading sign and surrounding whitespace; `"+123"` and
`" 123 "` contain non-digit characters yet coerce successfully, against
the claim that any non-digit content fails and only pure digit strings
succeed. -/
theorem c6_counterexample :
    pyInt "+123" = some 123 ∧ pyInt " 123 " = some 123 ∧
    ('+' ∈ "+123".data ∧ '+'.isDigit = false) ∧
    (' ' ∈ " 123 ".data ∧ ' '.isDigit = false) := by decide

theorem foldl_scan_template : ∀ (cs : List Char) (ft : List Char)
    (fn? : Option (List Char)) (vt : List Char) (inB : Bool),
    cs.foldl scanStep ⟨ft, fn?, some vt, inB⟩ = ⟨ft, fn?, some (vt ++ cs), inB⟩ := by
  intro cs
  induction cs with
  | nil => intro ft fn? vt inB; simp
  | cons c cs ih =>
    intro ft fn? vt inB
    rw [List.foldl_cons]
    have hstep : scanStep ⟨ft, fn?, some vt, inB⟩ c = ⟨ft, fn?, some (vt ++ [c]), inB⟩ := by
      simp [scanStep]
    rw [hstep, ih]
    simp

theorem foldl_scan_name_plain : ∀ (cs fn ft : List Char), fn ≠ [] →
    (∀ c ∈ cs, c ≠ ':') →
    cs.foldl scanStep ⟨ft, some fn, none, false⟩ = ⟨ft, some (fn ++ cs), none, false⟩ := by
  intro cs
  induction cs with
  | nil => intro fn ft h1 h2; simp
  | cons c cs ih =>
    intro fn ft hfn hc
    have hc1 : c ≠ ':' := hc c (List.mem_cons_self c cs)
    rw [List.foldl_cons]
    have hstep : scanStep ⟨ft, some fn, none, false⟩ c = ⟨ft, some (fn ++ [c]), none, false⟩ := by
      simp [scanStep, hc1, hfn]
    rw [hstep, ih (fn ++ [c]) ft (by simp) (fun c' h' => hc c' (List.mem_cons_of_mem c h'))]
    simp

theorem foldl_scan_name_bracket : ∀ (cs fn ft : List Char), fn ≠ [] →
    (∀ c ∈ cs, c ≠ ']') →
    cs.foldl scanStep ⟨ft, some fn, none, true⟩ = ⟨ft, some (fn ++ cs), none, true⟩ := by
  intro cs
  induction cs with
  | nil => intro fn ft h1 h2; simp
  | cons c cs ih =>
    intro fn ft hfn hc
    have hc1 : c ≠ ']' := hc c (List.mem_cons_self c cs)
    rw [List.foldl_cons]
    have hstep : scanStep ⟨ft, some fn, none, true⟩ c = ⟨ft, some (fn ++ [c]), none, true⟩ := by
      simp [scanStep, hc1, hfn]
    rw [hstep, ih (fn ++ [c]) ft (by simp) (fun c' h' => hc c' (List.mem_cons_of_mem c h'))]
    simp

theorem firstToken_string_prefix (rest : List Char) :
    firstToken (['s','t','r','i','n','g',' '] ++ rest) =
      some ['s','t','r','i','n','g'] := by
  simp [firstToken, dropSpaces, takeToken, isPySpace]

theorem firstToken_nullable_prefix (rest : List Char) :
    firstToken (['n','u','l','l','a','b','l','e',' '] ++ rest) =
      some ['n','u','l','l','a','b','l','e'] := by
  simp [firstToken, dropSpaces, takeToken, isPySpace]

theorem dropSpaces_space_string_bracket (rest : List Char) :
    dropSpaces ([' ','s','t','r','i','n','g',' ','['] ++ rest) =
      ['s','t','r','i','n','g',' ','['] ++ rest := by
  simp [dropSpaces, isPySpace]

theorem dropSpaces_reverse_append (A : List Char) {t : List Char}
    (h8 : dropSpaces t.reverse = t.reverse) (h6 : t ≠ []) :
    dropSpaces ((A ++ t).reverse) = (A ++ t).reverse := by
  rw [List.reverse_append]
  exact dropSpaces_append _ h8 (by simpa using h6)

/-- C5 (amended): the field-name region is any character run ended by the
first `:` outside brackets, so besides the two shapes of the original
claim, parse accepts every name free of `:` that does not start with `[`
— including names containing whitespace, `]`, or an interior `[` — and
recovers it verbatim.  Stated for the canonical line shape
`"string " ++ name ++ ": " ++ tmpl` with `name` colon-free, not
`[`-leading, and trimmed, and `tmpl` nonempty and trimmed. -/
theorem c5_amended_name_run_until_colon (name tmpl : String)
    (h1 : name.data ≠ [])
    (h2 : ∀ c ∈ name.data, c ≠ ':')
    (h3 : name.data.head? ≠ some '[')
    (h4 : dropSpaces name.data = name.data)
    (h5 : dropSpaces name.data.reverse = name.data.reverse)
    (h6 : tmpl.data ≠ [])
    (h7 : dropSpaces tmpl.data = tmpl.data)
    (h8 : dropSpaces tmpl.data.reverse = tmpl.data.reverse) :
    parseFieldMappingLine ("string " ++ name ++ ": " ++ tmpl) =
      Except.ok (false, "string", name, tmpl) := by
  have hgroup : ['s','t','r','i','n','g',' '] ++ (name.data ++ ([':',' '] ++ tmpl.data))
      = ((['s','t','r','i','n','g',' '] ++ name.data) ++ [':',' ']) ++ tmpl.data := by
    simp
  have hstrip : stripL (['s','t','r','i','n','g',' '] ++
      (name.data ++ ([':',' '] ++ tmpl.data)))
      = ['s','t','r','i','n','g',' '] ++ (name.data ++ ([':',' '] ++ tmpl.data)) := by
    apply stripL_eq_self
    · exact dropSpaces_append _ (by decide) (by decide)
    · rw [hgroup]
      exact dropSpaces_reverse_append _ h8 h6
  obtain ⟨c0, cs0, hname⟩ : ∃ c0 cs0, name.data = c0 :: cs0 := by
    cases hnd : name.data with
    | nil => exact absurd hnd h1
    | cons a b => exact ⟨a, b, rfl⟩
  have hc0brk : c0 ≠ '[' := by
    rw [hname] at h3
    simpa using h3
  have hc0col : c0 ≠ ':' := h2 c0 (by rw [hname]; exact List.mem_cons_self _ _)
  have hcs0 : ∀ c ∈ cs0, c ≠ ':' :=
    fun c hcmem => h2 c (by rw [hname]; exact List.mem_cons_of_mem _ hcmem)
  have hscan : (['s','t','r','i','n','g',' '] ++
      (name.data ++ ([':',' '] ++ tmpl.data))).foldl scanStep ⟨[], none, none, false⟩
      = ⟨['s','t','r','i','n','g'], some name.data, some (' ' :: tmpl.data), false⟩ := by
    rw [List.foldl_append]
    have hpre : List.foldl scanStep ⟨[], none, none, false⟩
        ['s','t','r','i','n','g',' ']
        = (⟨['s','t','r','i','n','g'], some [], none, false⟩ : ScanState) := by decide
    rw [hpre, hname, List.cons_append, List.foldl_cons]
    have hstep0 : scanStep ⟨['s','t','r','i','n','g'], some [], none, false⟩ c0
        = ⟨['s','t','r','i','n','g'], some [c0], none, false⟩ := by
      simp [scanStep, hc0col, hc0brk]
    rw [hstep0, List.foldl_append]
    rw [foldl_scan_name_plain cs0 [c0] ['s','t','r','i','n','g'] (by simp) hcs0]
    rw [List.foldl_append]
    have hcolon : List.foldl scanStep
        ⟨['s','t','r','i','n','g'], some ([c0] ++ cs0), none, false⟩ [':',' ']
        = ⟨['s','t','r','i','n','g'], some ([c0] ++ cs0), some [' '], false⟩ := by
      rw [show ([':',' '] : List Char) = ':' :: ' ' :: [] from rfl]
      rw [List.foldl_cons, List.foldl_cons, List.foldl_nil]
      simp [scanStep]
    rw [hcolon, foldl_scan_template]
    simp
  have hstrip2 : stripL ('s' :: 't' :: 'r' :: 'i' :: 'n' :: 'g' :: ' ' ::
      (name.data ++ ':' :: ' ' :: tmpl.data))
      = 's' :: 't' :: 'r' :: 'i' :: 'n' :: 'g' :: ' ' ::(name.data ++ ':' :: ' ' :: tmpl.data) :=
    hstrip
  have hft2 : firstToken ('s' :: 't' :: 'r' :: 'i' :: 'n' :: 'g' :: ' ' ::
      (name.data ++ ':' :: ' ' :: tmpl.data)) = some ['s','t','r','i','n','g'] :=
    firstToken_string_prefix (name.data ++ ':' :: ' ' :: tmpl.data)
  have hscan2 : List.foldl scanStep ⟨[], none, none, false⟩
      ('s' :: 't' :: 'r' :: 'i' :: 'n' :: 'g' :: ' ' ::(name.data ++ ':' :: ' ' :: tmpl.data))
      = ⟨['s','t','r','i','n','g'], some name.data, some (' ' :: tmpl.data), false⟩ :=
    hscan
  have hscanOf : scanOfLine ("string " ++ name ++ ": " ++ tmpl)
      = Except.ok (false,
          ⟨['s','t','r','i','n','g'], some name.data, some (' ' :: tmpl.data), false⟩) := by
    simp [scanOfLine, hstrip2, hft2, hscan2]
    decide
  have hnm2 : stripL name.data = name.data := stripL_eq_self h4 h5
  have hvt2 : stripL (' ' :: tmpl.data) = tmpl.data := by
    unfold stripL
    rw [show dropSpaces (' ' :: tmpl.data) = dropSpaces tmpl.data from by
      simp [dropSpaces, isPySpace]]
    rw [h7, h8, List.reverse_reverse]
  have hlow : lowerL (stripL ['s','t','r','i','n','g']) = ['s','t','r','i','n','g'] := by
    decide
  have hty : (TYPE_MAP (String.mk ['s','t','r','i','n','g'])).isSome = true := by decide
  have hstr : String.mk ['s','t','r','i','n','g'] = "string" := by decide
  have heta : ∀ s : String, String.mk s.data = s := fun s => rfl
  simp [parseFieldMappingLine, hscanOf, finishParse, truthyOpt, hnm2, hvt2, h1, h6,
    Option.map, hlow, hty, hstr, heta]

/-- Witness for the amended C5: a bare name containing whitespace is
accepted verbatim. -/
theorem c5_amended_witness :
    parseFieldMappingLine ("string " ++ "my field" ++ ": " ++ "{x}") =
      Except.ok (false, "string", "my field", "{x}") :=
  c5_amended_name_run_until_colon "my field" "{x}" (by decide) (by decide)
    (by decide) (by decide) (by decide) (by decide) (by decide) (by decide)

/-- C3: for well-formed lines of the declared shape
`nullable string [name]: tmpl` — `name` nonempty, free of `]`, not
starting with `[`, and trimmed; `tmpl` nonempty and trimmed — parse
recovers exactly the declared nullable flag, type, field name, and
value template, and the declared type resolves to STRING. -/
theorem c3_parse_recovers_declared_fields (name tmpl : String)
    (h1 : name.data ≠ [])
    (h2 : ∀ c ∈ name.data, c ≠ ']')
    (h3 : name.data.head? ≠ some '[')
    (h4 : dropSpaces name.data = name.data)
    (h5 : dropSpaces name.data.reverse = name.data.reverse)
    (h6 : tmpl.data ≠ [])
    (h7 : dropSpaces tmpl.data = tmpl.data)
    (h8 : dropSpaces tmpl.data.reverse = tmpl.data.reverse) :
    parseFieldMappingLine ("nullable string [" ++ name ++ "]: " ++ tmpl) =
      Except.ok (true, "string", name, tmpl) ∧
    TYPE_MAP "string" = some LitType.stringT := by
  refine ⟨?_, by decide⟩
  obtain ⟨c0, cs0, hname⟩ : ∃ c0 cs0, name.data = c0 :: cs0 := by
    cases hnd : name.data with
    | nil => exact absurd hnd h1
    | cons a b => exact ⟨a, b, rfl⟩
  have hc0brk : c0 ≠ '[' := by
    rw [hname] at h3
    simpa using h3
  have hc0rb : c0 ≠ ']' := h2 c0 (by rw [hname]; exact List.mem_cons_self _ _)
  have hcs0 : ∀ c ∈ cs0, c ≠ ']' :=
    fun c hcmem => h2 c (by rw [hname]; exact List.mem_cons_of_mem _ hcmem)
  have hstrip : stripL (['n','u','l','l','a','b','l','e',' ','s','t','r','i','n','g',
      ' ','['] ++ (name.data ++ ([']',':',' '] ++ tmpl.data)))
      = ['n','u','l','l','a','b','l','e',' ','s','t','r','i','n','g',' ','['] ++
        (name.data ++ ([']',':',' '] ++ tmpl.data)) := by
    apply stripL_eq_self
    · exact dropSpaces_append _ (by decide) (by decide)
    · rw [show ['n','u','l','l','a','b','l','e',' ','s','t','r','i','n','g',' ','['] ++
          (name.data ++ ([']',':',' '] ++ tmpl.data))
          = ((['n','u','l','l','a','b','l','e',' ','s','t','r','i','n','g',' ','['] ++
            name.data) ++ [']',':',' ']) ++ tmpl.data from by simp]
      exact dropSpaces_reverse_append _ h8 h6
  have hstrip2 : stripL ('n' :: 'u' :: 'l' :: 'l' :: 'a' :: 'b' :: 'l' :: 'e' :: ' ' :: 's' :: 't' :: 'r' ::
      'i' :: 'n' :: 'g' :: ' ' :: '[' ::(name.data ++ ']' :: ':' :: ' ' :: tmpl.data))
      = 'n' :: 'u' :: 'l' :: 'l' :: 'a' :: 'b' :: 'l' :: 'e' :: ' ' :: 's' :: 't' :: 'r' :: 'i' :: 'n' :: 'g' ::
        ' ' :: '[' ::(name.data ++ ']' :: ':' :: ' ' :: tmpl.data) := hstrip
  have hft2 : firstToken ('n' :: 'u' :: 'l' :: 'l' :: 'a' :: 'b' :: 'l' :: 'e' :: ' ' :: 's' :: 't' :: 'r' ::
      'i' :: 'n' :: 'g' :: ' ' :: '[' ::(name.data ++ ']' :: ':' :: ' ' :: tmpl.data))
      = some ['n','u','l','l','a','b','l','e'] :=
    firstToken_nullable_prefix
      ('s' :: 't' :: 'r' :: 'i' :: 'n' :: 'g' :: ' ' :: '[' ::(name.data ++ ']' :: ':' :: ' ' :: tmpl.data))
  have hdrop8 : List.drop 8 ('n' :: 'u' :: 'l' :: 'l' :: 'a' :: 'b' :: 'l' :: 'e' :: ' ' :: 's' :: 't' ::
      'r' :: 'i' :: 'n' :: 'g' :: ' ' :: '[' ::(name.data ++ ']' :: ':' :: ' ' :: tmpl.data))
      = ' ' :: 's' :: 't' :: 'r' :: 'i' :: 'n' :: 'g' :: ' ' :: '[' ::
        (name.data ++ ']' :: ':' :: ' ' :: tmpl.data) := rfl
  have hstrip3 : stripL (' ' :: 's' :: 't' :: 'r' :: 'i' :: 'n' :: 'g' :: ' ' :: '[' ::
      (name.data ++ ']' :: ':' :: ' ' :: tmpl.data))
      = 's' :: 't' :: 'r' :: 'i' :: 'n' :: 'g' :: ' ' :: '[' ::
        (name.data ++ ']' :: ':' :: ' ' :: tmpl.data) := by
    unfold stripL
    rw [show dropSpaces (' ' :: 's' :: 't' :: 'r' :: 'i' :: 'n' :: 'g' :: ' ' :: '[' ::
        (name.data ++ ']' :: ':' :: ' ' :: tmpl.data))
        = 's' :: 't' :: 'r' :: 'i' :: 'n' :: 'g' :: ' ' :: '[' ::
          (name.data ++ ']' :: ':' :: ' ' :: tmpl.data) from
      dropSpaces_space_string_bracket (name.data ++ ']' :: ':' :: ' ' :: tmpl.data)]
    rw [show 's' :: 't' :: 'r' :: 'i' :: 'n' :: 'g' :: ' ' :: '[' ::
        (name.data ++ ']' :: ':' :: ' ' :: tmpl.data)
        = ((['s','t','r','i','n','g',' ','['] ++ name.data) ++ [']',':',' ']) ++
          tmpl.data from by simp]
    rw [dropSpaces_reverse_append _ h8 h6, List.reverse_reverse]
  have hscan : (['s','t','r','i','n','g',' ','['] ++
      (name.data ++ ([']',':',' '] ++ tmpl.data))).foldl scanStep ⟨[], none, none, false⟩
      = ⟨['s','t','r','i','n','g'], some name.data, some (' ' :: tmpl.data), false⟩ := by
    rw [List.foldl_append]
    have hpre : List.foldl scanStep ⟨[], none, none, false⟩
        ['s','t','r','i','n','g',' ','[']
        = (⟨['s','t','r','i','n','g'], some [], none, true⟩ : ScanState) := by decide
    rw [hpre, hname, List.cons_append, List.foldl_cons]
    have hstep0 : scanStep ⟨['s','t','r','i','n','g'], some [], none, true⟩ c0
        = ⟨['s','t','r','i','n','g'], some [c0], none, true⟩ := by
      simp [scanStep, hc0rb, hc0brk]
    rw [hstep0, List.foldl_append]
    rw [foldl_scan_name_bracket cs0 [c0] ['s','t','r','i','n','g'] (by simp) hcs0]
    rw [List.foldl_append]
    have hclose : List.foldl scanStep
        ⟨['s','t','r','i','n','g'], some ([c0] ++ cs0), none, true⟩ [']',':',' ']
        = ⟨['s','t','r','i','n','g'], some ([c0] ++ cs0), some [' '], false⟩ := by
      rw [show ([']',':',' '] : List Char) = ']' :: ':' :: ' ' :: [] from rfl]
      rw [List.foldl_cons, List.foldl_cons, List.foldl_cons, List.foldl_nil]
      simp [scanStep]
    rw [hclose, foldl_scan_template]
    simp
  have hscan2 : List.foldl scanStep ⟨[], none, none, false⟩
      ('s' :: 't' :: 'r' :: 'i' :: 'n' :: 'g' :: ' ' :: '[' ::
        (name.data ++ ']' :: ':' :: ' ' :: tmpl.data))
      = ⟨['s','t','r','i','n','g'], some name.data, some (' ' :: tmpl.data), false⟩ :=
    hscan
  have hscanOf : scanOfLine ("nullable string [" ++ name ++ "]: " ++ tmpl)
      = Except.ok (true,
          ⟨['s','t','r','i','n','g'], some name.data, some (' ' :: tmpl.data), false⟩) := by
    simp [scanOfLine, hstrip2, hft2, hdrop8, hstrip3, hscan2]
    decide
  have hnm2 : stripL name.data = name.data := stripL_eq_self h4 h5
  have hvt2 : stripL (' ' :: tmpl.data) = tmpl.data := by
    unfold stripL
    rw [show dropSpaces (' ' :: tmpl.data) = dropSpaces tmpl.data from by
      simp [dropSpaces, isPySpace]]
    rw [h7, h8, List.reverse_reverse]
  have hlow : lowerL (stripL ['s','t','r','i','n','g']) = ['s','t','r','i','n','g'] := by
    decide
  have hty : (TYPE_MAP (String.mk ['s','t','r','i','n','g'])).isSome = true := by decide
  have hstr : String.mk ['s','t','r','i','n','g'] = "string" := by decide
  have heta : ∀ s : String, String.mk s.data = s := fun s => rfl
  simp [parseFieldMappingLine, hscanOf, finishParse, truthyOpt, hnm2, hvt2, h1, h6,
    Option.map, hlow, hty, hstr, heta]

/-- Witness for C3: the spec's own example line. -/
theorem c3_witness :
    parseFieldMappingLine ("nullable string [" ++ "Full Name" ++ "]: " ++ "{first} {last}") =
      Except.ok (true, "string", "Full Name", "{first} {last}") ∧
    TYPE_MAP "string" = some LitType.stringT :=
  c3_parse_recovers_declared_fields "Full Name" "{first} {last}" (by decide) (by decide)
    (by decide) (by decide) (by decide) (by decide) (by decide) (by decide)

theorem isPySpace_eq_false_of_isDigit {c : Char} (h : c.isDigit = true) :
    isPySpace c = false := by
  rcases Bool.eq_false_or_eq_true (isPySpace c) with ht | hf
  · exfalso
    have hc : c = ' ' ∨ c = '\t' ∨ c = '\n' ∨ c = '\r' ∨ c = '\x0b' ∨ c = '\x0c' := by
      simpa [isPySpace, or_assoc] using ht
    rcases hc with rfl | rfl | rfl | rfl | rfl | rfl <;> exact absurd h (by decide)
  · exact hf

theorem dropSpaces_of_all_digits {l : List Char}
    (h : ∀ c ∈ l, c.isDigit = true) : dropSpaces l = l := by
  cases l with
  | nil => rfl
  | cons c cs =>
    exact dropSpaces_cons_of_nonspace cs
      (isPySpace_eq_false_of_isDigit (h c (List.mem_cons_self c cs)))

theorem digitsRunF_of_all_digits : ∀ (l : List Char) (acc : Nat),
    (∀ c ∈ l, c.isDigit = true) →
    digitsRunF false l acc = some (l.foldl (fun a c => a * 10 + digitVal c) acc) := by
  intro l
  induction l with
  | nil => intro acc h; simp [digitsRunF]
  | cons c cs ih =>
    intro acc h
    have hc : c.isDigit = true := h c (List.mem_cons_self c cs)
    rw [List.foldl_cons]
    simp only [digitsRunF, hc, if_true]
    exact ih _ (fun c' h' => h c' (List.mem_cons_of_mem c h'))

theorem parseUnsigned_of_all_digits {l : List Char} (hne : l ≠ [])
    (h : ∀ c ∈ l, c.isDigit = true) :
    parseUnsigned l = some (digitsToNat l) := by
  cases l with
  | nil => exact absurd rfl hne
  | cons c cs =>
    have hc : c.isDigit = true := h c (List.mem_cons_self c cs)
    simp only [parseUnsigned, hc, if_true, digitsRun]
    rw [digitsRunF_of_all_digits cs (digitVal c)
      (fun c' h' => h c' (List.mem_cons_of_mem c h'))]
    simp [digitsToNat]

theorem digitsRunF_chars : ∀ (l : List Char) (b : Bool) (acc n : Nat),
    digitsRunF b l acc = some n → ∀ c ∈ l, c.isDigit = true ∨ c = '_' := by
  intro l
  induction l with
  | nil => intro b acc n h c hc; exact absurd hc (List.not_mem_nil c)
  | cons c0 cs ih =>
    intro b acc n h c hc
    by_cases hd : c0.isDigit = true
    · simp only [digitsRunF, hd, if_true] at h
      rcases List.mem_cons.mp hc with rfl | hmem
      · exact Or.inl hd
      · exact ih false _ n h c hmem
    · by_cases hu : b = false ∧ c0 = '_'
      · simp only [digitsRunF] at h
        rw [if_neg hd, if_pos hu] at h
        rcases List.mem_cons.mp hc with rfl | hmem
        · exact Or.inr hu.2
        · exact ih true _ n h c hmem
      · simp only [digitsRunF] at h
        rw [if_neg hd, if_neg hu] at h
        exact absurd h (by simp)

theorem parseUnsigned_chars {l : List Char} {n : Nat}
    (h : parseUnsigned l = some n) : ∀ c ∈ l, c.isDigit = true ∨ c = '_' := by
  cases l with
  | nil => simp [parseUnsigned] at h
  | cons c0 cs =>
    by_cases hd : c0.isDigit = true
    · simp only [parseUnsigned, hd, if_true, digitsRun] at h
      intro c hc
      rcases List.mem_cons.mp hc with rfl | hmem
      · exact Or.inl hd
      · exact digitsRunF_chars cs false _ n h c hmem
    · simp only [parseUnsigned] at h
      rw [if_neg hd] at h
      exact absurd h (by simp)

theorem dropSpaces_decomp (l : List Char) :
    ∃ pre, l = pre ++ dropSpaces l ∧ ∀ c ∈ pre, isPySpace c = true := by
  induction l with
  | nil => exact ⟨[], rfl, by simp⟩
  | cons c cs ih =>
    by_cases h : isPySpace c = true
    · obtain ⟨pre, heq, hall⟩ := ih
      refine ⟨c :: pre, ?_, ?_⟩
      · rw [dropSpaces, if_pos h, List.cons_append]
        exact congrArg (c :: ·) heq
      · intro c' hc'
        rcases List.mem_cons.mp hc' with rfl | hmem
        · exact h
        · exact hall c' hmem
    · refine ⟨[], ?_, by simp⟩
      rw [dropSpaces, if_neg h, List.nil_append]

theorem stripL_decomp (l : List Char) :
    ∃ pre suf, l = pre ++ stripL l ++ suf ∧
      (∀ c ∈ pre, isPySpace c = true) ∧ (∀ c ∈ suf, isPySpace c = true) := by
  obtain ⟨pre, h1, hp⟩ := dropSpaces_decomp l
  obtain ⟨pre2, h2, hp2⟩ := dropSpaces_decomp ((dropSpaces l).reverse)
  refine ⟨pre, pre2.reverse, ?_, hp, fun c hc => hp2 c (List.mem_reverse.mp hc)⟩
  have h3 : dropSpaces l = stripL l ++ pre2.reverse := by
    have h4 := congrArg List.reverse h2
    simpa [stripL] using h4
  rw [h3] at h1
  simpa [List.append_assoc] using h1

/-- C6 (amended): the INTEGER coercion rule follows Python `int`: it
succeeds on every nonempty string of decimal digits, returning their
base-10 value; beyond pure digit strings it also accepts optional
surrounding whitespace, one optional leading sign, and single
underscores between digits — every successfully coerced string consists
only of digits, signs, underscores, and whitespace, so any other
non-digit content fails. -/
theorem c6_amended_python_int_semantics :
    (∀ s : String, s.data ≠ [] → (∀ c ∈ s.data, c.isDigit = true) →
      pyInt s = some (Int.ofNat (digitsToNat s.data))) ∧
    (∀ (s : String) (n : Int), pyInt s = some n →
      ∀ c ∈ s.data, c.isDigit = true ∨ c = '+' ∨ c = '-' ∨ c = '_' ∨
        isPySpace c = true) := by
  constructor
  · intro s hne hall
    have hstrip : stripL s.data = s.data :=
      stripL_eq_self (dropSpaces_of_all_digits hall)
        (dropSpaces_of_all_digits (fun c hc => hall c (List.mem_reverse.mp hc)))
    cases hd : s.data with
    | nil => exact absurd hd hne
    | cons c cs =>
      have hall' : ∀ x ∈ c :: cs, x.isDigit = true := fun x hx => hall x (hd ▸ hx)
      have hc : c.isDigit = true := hall' c (List.mem_cons_self _ _)
      have hcp : ¬(c = '+') := fun he => by rw [he] at hc; exact absurd hc (by decide)
      have hcm : ¬(c = '-') := fun he => by rw [he] at hc; exact absurd hc (by decide)
      have hstrip' : stripL (c :: cs) = c :: cs := hd ▸ hstrip
      have hpu : parseUnsigned (c :: cs) = some (digitsToNat (c :: cs)) :=
        parseUnsigned_of_all_digits (by simp) hall'
      simp [pyInt, pyIntCore, hd, hstrip', hcp, hcm, hpu]
  · intro s n h c hc
    obtain ⟨pre, suf, hdecomp, hp, hs⟩ := stripL_decomp s.data
    rw [hdecomp] at hc
    rcases List.mem_append.mp hc with hc1 | hc2
    · rcases List.mem_append.mp hc1 with hpre | hmid
      · exact Or.inr (Or.inr (Or.inr (Or.inr (hp c hpre))))
      · -- character of the stripped core
        unfold pyInt at h
        cases hm : stripL s.data with
        | nil => rw [hm] at h; exact absurd h (by simp [pyIntCore])
        | cons c0 cs0 =>
          rw [hm] at h hmid
          simp only [pyIntCore] at h
          by_cases hplus : c0 = '+'
          · rw [if_pos hplus] at h
            obtain ⟨m, hm2, _⟩ := Option.map_eq_some'.mp h
            rcases List.mem_cons.mp hmid with rfl | hmem
            · exact Or.inr (Or.inl hplus)
            · rcases parseUnsigned_chars hm2 c hmem with hdg | hun
              · exact Or.inl hdg
              · exact Or.inr (Or.inr (Or.inr (Or.inl hun)))
          · rw [if_neg hplus] at h
            by_cases hminus : c0 = '-'
            · rw [if_pos hminus] at h
              obtain ⟨m, hm2, _⟩ := Option.map_eq_some'.mp h
              rcases List.mem_cons.mp hmid with rfl | hmem
              · exact Or.inr (Or.inr (Or.inl hminus))
              · rcases parseUnsigned_chars hm2 c hmem with hdg | hun
                · exact Or.inl hdg
                · exact Or.inr (Or.inr (Or.inr (Or.inl hun)))
            · rw [if_neg hminus] at h
              obtain ⟨m, hm2, _⟩ := Option.map_eq_some'.mp h
              rcases parseUnsigned_chars hm2 c hmid with hdg | hun
              · exact Or.inl hdg
              · exact Or.inr (Or.inr (Or.inr (Or.inl hun)))
    · exact Or.inr (Or.inr (Or.inr (Or.inr (hs c hc2))))

/-- Witness for the amended C6: a pure digit string coerces to its
base-10 value, and a successfully coerced string with sign, underscore,
and whitespace has only characters of the stated alphabet. -/
theorem c6_amended_witness :
    pyInt "42" = some (Int.ofNat (digitsToNat "42".data)) ∧
    (∀ c ∈ (" +1_23" : String).data, c.isDigit = true ∨ c = '+' ∨ c = '-' ∨
      c = '_' ∨ isPySpace c = true) :=
  ⟨c6_amended_python_int_semantics.1 "42" (by decide) (by decide),
   c6_amended_python_int_semantics.2 " +1_23" 123 (by decide)⟩

theorem pyLowerChar_of_space {c : Char} (h : isPySpace c = true) :
    pyLowerChar c = c := by
  have hc : c = ' ' ∨ c = '\t' ∨ c = '\n' ∨ c = '\r' ∨ c = '\x0b' ∨ c = '\x0c' := by
    simpa [isPySpace, or_assoc] using h
  rcases hc with rfl | rfl | rfl | rfl | rfl | rfl <;> decide

theorem toNat_le_of_isDigit {c : Char} (h : c.isDigit = true) : c.toNat ≤ 57 := by
  simp [Char.isDigit] at h
  exact UInt32.toNat_le_of_le (by decide) h.2

theorem pyLowerChar_of_digit {c : Char} (h : c.isDigit = true) :
    pyLowerChar c = c := by
  have h57 := toNat_le_of_isDigit h
  unfold pyLowerChar
  rw [if_neg]
  rintro ⟨ha, -⟩
  omega

/-- C8: the dispatch-time null-override set is exactly
`{"", "none", "null"}` and excludes `"nil"`: for a nullable field whose
interpolated string lower-cases to `"nil"`, the override does not apply
(even though the NULL type's own rule accepts `"nil"`), the declared
type's coercion rule runs on the string, and for a declared INTEGER
type the coercion — Python `int("nil")` — fails, so dispatch fails. -/
theorem c8_nil_excluded_from_override (kw : List (String × String))
    (f : FieldMapping) (s : String) (hn : f.nullable = true)
    (hi : formatMap f.valueTemplate kw = Except.ok s)
    (hs : lowerL s.data = "nil".data) :
    isNullOverride f.nullable s = false ∧
    nullParser s = some PyValue.pyNone ∧
    (∀ ty, TYPE_MAP f.fieldType = some ty →
      processField kw f = (match runTypeRule ty s with
        | some v => Except.ok (f.fieldName, v, ty)
        | none => Except.error (NotifyErr.coercion f.fieldName s))) ∧
    (TYPE_MAP f.fieldType = some LitType.intT →
      processField kw f = Except.error (NotifyErr.coercion f.fieldName s)) := by
  have hov : isNullOverride f.nullable s = false := by
    unfold isNullOverride
    rw [hn, Bool.true_and, decide_eq_false_iff_not, hs]
    decide
  have hnp : nullParser s = some PyValue.pyNone := by
    unfold nullParser
    rw [hs]
    rw [if_pos (by decide)]
  have hmap : s.data.map pyLowerChar = ['n', 'i', 'l'] := by
    have h0 := hs
    unfold lowerL at h0
    exact h0
  obtain ⟨c1, c2, c3, hd, h1, h2n, h3n⟩ :
      ∃ c1 c2 c3, s.data = [c1, c2, c3] ∧ pyLowerChar c1 = 'n' ∧
        pyLowerChar c2 = 'i' ∧ pyLowerChar c3 = 'l' := by
    cases hl : s.data with
    | nil => rw [hl] at hmap; simp at hmap
    | cons a t1 =>
      cases t1 with
      | nil => rw [hl] at hmap; simp at hmap
      | cons b t2 =>
        cases t2 with
        | nil => rw [hl] at hmap; simp at hmap
        | cons cc t3 =>
          cases t3 with
          | nil =>
            rw [hl] at hmap
            simp only [List.map_cons, List.map_nil, List.cons.injEq, and_true] at hmap
            exact ⟨a, b, cc, rfl, hmap.1, hmap.2.1, hmap.2.2⟩
          | cons dd t4 => rw [hl] at hmap; simp at hmap
  have hc1sp : isPySpace c1 = false := by
    rcases Bool.eq_false_or_eq_true (isPySpace c1) with ht | hf
    · rw [pyLowerChar_of_space ht] at h1
      subst h1
      exact absurd ht (by decide)
    · exact hf
  have hc3sp : isPySpace c3 = false := by
    rcases Bool.eq_false_or_eq_true (isPySpace c3) with ht | hf
    · rw [pyLowerChar_of_space ht] at h3n
      subst h3n
      exact absurd ht (by decide)
    · exact hf
  have hc1p : ¬(c1 = '+') := fun he => by rw [he] at h1; exact absurd h1 (by decide)
  have hc1m : ¬(c1 = '-') := fun he => by rw [he] at h1; exact absurd h1 (by decide)
  have hc1d : c1.isDigit = false := by
    rcases Bool.eq_false_or_eq_true c1.isDigit with ht | hf
    · rw [pyLowerChar_of_digit ht] at h1
      subst h1
      exact absurd ht (by decide)
    · exact hf
  have hstrip : stripL s.data = s.data := by
    rw [hd]
    apply stripL_eq_self
    · exact dropSpaces_cons_of_nonspace _ hc1sp
    · rw [show ([c1, c2, c3] : List Char).reverse = [c3, c2, c1] from by simp]
      exact dropSpaces_cons_of_nonspace _ hc3sp
  have hpy : pyInt s = none := by
    unfold pyInt
    rw [hstrip, hd]
    simp only [pyIntCore]
    rw [if_neg hc1p, if_neg hc1m]
    simp [parseUnsigned, hc1d]
  have hrun : runTypeRule LitType.intT s = none := by simp [runTypeRule, hpy]
  refine ⟨hov, hnp, ?_, ?_⟩
  · intro ty hty
    simp [processField, hi, hov, hty]
  · intro hty
    simp [processField, hi, hov, hty, hrun]

/-- Witness for C8: a nullable INTEGER field whose context value is
`"nil"` is not overridden to NULL and fails coercion. -/
theorem c8_witness :
    isNullOverride true "nil" = false ∧
    nullParser "nil" = some PyValue.pyNone ∧
    (∀ ty, TYPE_MAP "int" = some ty →
      processField [("x", "nil")] ⟨true, "int", "Count", "{x}"⟩ =
        (match runTypeRule ty "nil" with
          | some v => Except.ok ("Count", v, ty)
          | none => Except.error (NotifyErr.coercion "Count" "nil"))) ∧
    (TYPE_MAP "int" = some LitType.intT →
      processField [("x", "nil")] ⟨true, "int", "Count", "{x}"⟩ =
        Except.error (NotifyErr.coercion "Count" "nil")) :=
  c8_nil_excluded_from_override [("x", "nil")] ⟨true, "int", "Count", "{x}"⟩ "nil"
    rfl (by decide) (by decide)
